import Mathlib

/-!
Shallow embedding of the `use-debounced` debounce engine and its call-state
machinery, translated from the repository sources:

* `src/prim.ts` (two snapshots of `useDebouncedPrim`) and the later
  object-returning snapshot of `useDebouncedPrim` — the timer/count/state
  debounce primitive;
* `src/asyncCall.ts` — the four-state call reducer and the async call
  coordinator;
* `src/state.ts` / `src/call.ts` — the leading/trailing edge wrappers.

Timers are modelled by recording absolute deadlines inside the `waiting`
state: in the source the set of pending `setTimeout` handles is exactly the
pair recorded in the `waiting` state (every transition that drops a handle
also calls `clearTimeout` on it), so a pending timer is faithfully
represented by its deadline and firing is the environment calling the
`flush` closure once the deadline is reached.  Callback invocations are
recorded in an output trace instead of calling opaque user functions.
-/

namespace UseDebounced

/-- Debounce configuration from `UseDebouncedPrimOptions`: the quiescence
window `wait` and the optional ceiling `maxWait`. -/
structure Config where
  wait : Nat
  maxWait : Option Nat
deriving DecidableEq

/-- `DebouncedPrimState` from `prim.ts`: either `standby` or `waiting` with
the pending trailing-timer deadline, the optional maxWait-timer deadline,
the latest args and the trigger count. -/
inductive RunState (α : Type) where
  | standby
  | waiting (timerDeadline : Nat) (maxWaitDeadline : Option Nat) (args : α) (count : Nat)
deriving DecidableEq

/-- The full mutable state of one `useDebouncedPrim` instance:
`isUnmountedRef` and `stateRef`. -/
structure PrimState (α : Type) where
  unmounted : Bool
  run : RunState α
deriving DecidableEq

/-- Observable callback invocations of the engine. -/
inductive Out (α : Type) where
  | triggerCb
  | leadingCb (args : α)
  | trailingCb (args : α) (count : Nat)
  | cancelCb
deriving DecidableEq

/-- A callback invocation together with the time at which it happened. -/
structure Timed (α : Type) where
  time : Nat
  out : Out α
deriving DecidableEq

/-- `flushRef` of the first `prim.ts` snapshot: no-op when unmounted or in
standby; from `waiting` it clears both timers, returns to standby and then
invokes the trailing callback with the stored args and count. -/
def flushA (s : PrimState α) : PrimState α × List (Out α) :=
  if s.unmounted then (s, [])
  else
    match s.run with
    | .standby => (s, [])
    | .waiting _ _ args count => (⟨s.unmounted, .standby⟩, [.trailingCb args count])

/-- `triggerRef` of the first `prim.ts` snapshot: no-op when unmounted;
otherwise it first invokes the trigger callback, then from standby opens a
burst (schedules the trailing timer for `wait` from now and, when `maxWait`
is configured, the ceiling timer for `maxWait` from now, stores the args
with count 1, and invokes the leading callback), and from waiting
reschedules only the trailing timer, overwrites the args and bumps the
count. -/
def triggerA (cfg : Config) (now : Nat) (args : α) (s : PrimState α) :
    PrimState α × List (Out α) :=
  if s.unmounted then (s, [])
  else
    match s.run with
    | .standby =>
        (⟨s.unmounted, .waiting (now + cfg.wait) (cfg.maxWait.map (now + ·)) args 1⟩,
         [.triggerCb, .leadingCb args])
    | .waiting _ mwd _ count =>
        (⟨s.unmounted, .waiting (now + cfg.wait) mwd args (count + 1)⟩, [.triggerCb])

/-- `cancelRef` of the first `prim.ts` snapshot: no-op when unmounted; in
standby it does nothing (in particular it does not invoke the cancel
callback); from waiting it clears both timers, returns to standby and
invokes the cancel callback. -/
def cancelA (s : PrimState α) : PrimState α × List (Out α) :=
  if s.unmounted then (s, [])
  else
    match s.run with
    | .standby => (s, [])
    | .waiting _ _ _ _ => (⟨s.unmounted, .standby⟩, [.cancelCb])

/-- `cancelRef` of the later object-returning `useDebouncedPrim` snapshot
(the one exercised by the first block of `prim.test.ts`): identical to
`cancelA` except that the cancel callback is invoked unconditionally after
the state switch, so an idle cancel still signals the hook. -/
def cancelC (s : PrimState α) : PrimState α × List (Out α) :=
  if s.unmounted then (s, [])
  else
    match s.run with
    | .standby => (s, [.cancelCb])
    | .waiting _ _ _ _ => (⟨s.unmounted, .standby⟩, [.cancelCb])

/-- `flushRef` of the second `prim.ts` snapshot (`debouncedFunc` variant):
not guarded at entry; from waiting it clears both timers and returns to
standby, but the trailing callback is suppressed when unmounted. -/
def flushB (s : PrimState α) : PrimState α × List (Out α) :=
  match s.run with
  | .standby => (s, [])
  | .waiting _ _ args count =>
      (⟨s.unmounted, .standby⟩, if s.unmounted then [] else [.trailingCb args count])

/-- `debouncedFunc` of the second `prim.ts` snapshot: there is no unmounted
guard before scheduling, so from standby it always schedules both timers
and moves to waiting with count 0, suppressing only the leading callback
when unmounted; from waiting it reschedules the trailing timer, overwrites
the args and bumps the count. -/
def triggerB (cfg : Config) (now : Nat) (args : α) (s : PrimState α) :
    PrimState α × List (Out α) :=
  match s.run with
  | .standby =>
      (⟨s.unmounted, .waiting (now + cfg.wait) (cfg.maxWait.map (now + ·)) args 0⟩,
       if s.unmounted then [] else [.leadingCb args])
  | .waiting _ mwd _ count =>
      (⟨s.unmounted, .waiting (now + cfg.wait) mwd args (count + 1)⟩, [])

/-- `cancelRef` of the second `prim.ts` snapshot: clears the timers and
returns to standby; it never invokes any callback. -/
def cancelB (s : PrimState α) : PrimState α × List (Out α) :=
  match s.run with
  | .standby => (s, [])
  | .waiting _ _ _ _ => (⟨s.unmounted, .standby⟩, [])

/-- The earliest pending deadline of a burst: the trailing deadline, or its
minimum with the maxWait deadline when one is set. -/
def minDl (d : Nat) : Option Nat → Nat
  | none => d
  | some m => min d m

/-- Environment step for the first snapshot: once time reaches the earliest
pending deadline, the host timer invokes the `flush` closure at that
deadline (whichever of the two timers fires first, the flush body runs once
and clears the other, so at most one firing happens per burst). -/
def fireTimersA (t : Nat) (s : PrimState α) : PrimState α × List (Timed α) :=
  match s.run with
  | .standby => (s, [])
  | .waiting d mwd _ _ =>
      if minDl d mwd ≤ t then
        ((flushA s).1, (flushA s).2.map (fun o => ⟨minDl d mwd, o⟩))
      else (s, [])

/-- Same for the second snapshot, whose flush body is `flushB`. -/
def fireTimersB (t : Nat) (s : PrimState α) : PrimState α × List (Timed α) :=
  match s.run with
  | .standby => (s, [])
  | .waiting d mwd _ _ =>
      if minDl d mwd ≤ t then
        ((flushB s).1, (flushB s).2.map (fun o => ⟨minDl d mwd, o⟩))
      else (s, [])

/-- External events arriving at the engine. -/
inductive EvKind (α : Type) where
  | trig (args : α)
  | cancel
  | flush
  | unmount
deriving DecidableEq

/-- A timestamped external event. -/
structure Ev (α : Type) where
  time : Nat
  kind : EvKind α
deriving DecidableEq

/-- One step of the timed semantics for the first snapshot: fire any timer
due before the event's time, then perform the event.  The unmount effect
sets `isUnmountedRef` and clears the pending timers (subsequent firings are
suppressed by the operations' unmounted guards). -/
def stepA (cfg : Config) (acc : PrimState α × List (Timed α)) (e : Ev α) :
    PrimState α × List (Timed α) :=
  let ft := fireTimersA e.time acc.1
  match e.kind with
  | .trig args =>
      let r := triggerA cfg e.time args ft.1
      (r.1, acc.2 ++ ft.2 ++ r.2.map (fun o => ⟨e.time, o⟩))
  | .cancel =>
      let r := cancelA ft.1
      (r.1, acc.2 ++ ft.2 ++ r.2.map (fun o => ⟨e.time, o⟩))
  | .flush =>
      let r := flushA ft.1
      (r.1, acc.2 ++ ft.2 ++ r.2.map (fun o => ⟨e.time, o⟩))
  | .unmount => (⟨true, ft.1.run⟩, acc.2 ++ ft.2)

/-- After the last external event, silence lets any pending timer fire at
its own deadline. -/
def finishA (s : PrimState α) : PrimState α × List (Timed α) :=
  match s.run with
  | .standby => (s, [])
  | .waiting d mwd _ _ => fireTimersA (minDl d mwd) s

/-- Run the first-snapshot engine from its initial state over a list of
timed events followed by silence, collecting the trace of callback
invocations. -/
def runA (cfg : Config) (evs : List (Ev α)) : PrimState α × List (Timed α) :=
  let r := evs.foldl (stepA cfg) (⟨false, .standby⟩, [])
  let f := finishA r.1
  (f.1, r.2 ++ f.2)

/-- One step of the timed semantics for the second snapshot. -/
def stepB (cfg : Config) (acc : PrimState α × List (Timed α)) (e : Ev α) :
    PrimState α × List (Timed α) :=
  let ft := fireTimersB e.time acc.1
  match e.kind with
  | .trig args =>
      let r := triggerB cfg e.time args ft.1
      (r.1, acc.2 ++ ft.2 ++ r.2.map (fun o => ⟨e.time, o⟩))
  | .cancel =>
      let r := cancelB ft.1
      (r.1, acc.2 ++ ft.2 ++ r.2.map (fun o => ⟨e.time, o⟩))
  | .flush =>
      let r := flushB ft.1
      (r.1, acc.2 ++ ft.2 ++ r.2.map (fun o => ⟨e.time, o⟩))
  | .unmount => (⟨true, ft.1.run⟩, acc.2 ++ ft.2)

/-- Silence for the second snapshot. -/
def finishB (s : PrimState α) : PrimState α × List (Timed α) :=
  match s.run with
  | .standby => (s, [])
  | .waiting d mwd _ _ => fireTimersB (minDl d mwd) s

/-- Run the second-snapshot engine over timed events followed by silence. -/
def runB (cfg : Config) (evs : List (Ev α)) : PrimState α × List (Timed α) :=
  let r := evs.foldl (stepB cfg) (⟨false, .standby⟩, [])
  let f := finishB r.1
  (f.1, r.2 ++ f.2)

/-- Trigger-only event list from timestamped argument values. -/
def trigEvents (l : List (Nat × α)) : List (Ev α) :=
  l.map (fun p => ⟨p.1, .trig p.2⟩)

/-- Trailing-callback invocations of a trace. -/
def isTrailing : Out α → Bool
  | .trailingCb _ _ => true
  | _ => false

/-- Filter a trace down to its trailing-callback invocations. -/
def trailings (tr : List (Timed α)) : List (Timed α) :=
  tr.filter (fun x => isTrailing x.out)

/-- Consecutive-gap condition: each trigger in the list arrives strictly
after the previous one and strictly less than `wait` after it. -/
def gapsOk (cfg : Config) : Nat → List (Nat × α) → Bool
  | _, [] => true
  | tp, q :: l => (decide (tp < q.1) && decide (q.1 < tp + cfg.wait)) && gapsOk cfg q.1 l

/-- `belowOpt c t` holds when `t` is strictly before the optional deadline. -/
def belowOpt : Option Nat → Nat → Bool
  | none, _ => true
  | some m, t => decide (t < m)

/-- Every trigger in the list arrives strictly before the optional maxWait
deadline. -/
def allBelow (mwd : Option Nat) (l : List (Nat × α)) : Bool :=
  l.all (fun p => belowOpt mwd p.1)

/-- Time of the last trigger, given the time of the previous one. -/
def lastTimeOf (tp : Nat) : List (Nat × α) → Nat
  | [] => tp
  | q :: l => lastTimeOf q.1 l

/-- Args of the last trigger, given the args of the previous one. -/
def lastArgOf (b : α) : List (Nat × α) → α
  | [] => b
  | q :: l => lastArgOf q.2 l

/-- `State<R>` from `asyncCall.ts`: the four-variant call state, each
carrying the last known result. -/
inductive CallState (ρ : Type) where
  | standby (result : ρ)
  | waiting (result : ρ)
  | pending (result : ρ)
  | waitingPending (result : ρ)
deriving DecidableEq

/-- The `result` field common to all four variants. -/
def CallState.result : CallState ρ → ρ
  | .standby r => r
  | .waiting r => r
  | .pending r => r
  | .waitingPending r => r

/-- `Action<R>` from the first `asyncCall.ts` snapshot. -/
inductive CallAction (ρ : Type) where
  | start
  | leadingCall (skip : Bool)
  | trailingCall (skip : Bool)
  | fulfill (result : ρ)
  | reject
  | cancel
  | reset (result : ρ)
deriving DecidableEq

/-- `handleStart` from `asyncCall.ts`; a `throw` is modelled as
`Except.error` with the thrown message. -/
def handleStart : CallState ρ → Except String (CallState ρ)
  | .standby r => .ok (.waiting r)
  | .pending r => .ok (.waitingPending r)
  | .waiting _ => .error "unexpected state: waiting"
  | .waitingPending _ => .error "unexpected state: waiting-pending"

/-- `handleLeadingCall` from `asyncCall.ts`. -/
def handleLeadingCall (st : CallState ρ) (skip : Bool) : Except String (CallState ρ) :=
  match st with
  | .waiting r => .ok (if skip then .waiting r else .waitingPending r)
  | .waitingPending r => .ok (.waitingPending r)
  | .standby _ => .error "unexpected state: standby"
  | .pending _ => .error "unexpected state: pending"

/-- `handleTrailingCall` from `asyncCall.ts`. -/
def handleTrailingCall (st : CallState ρ) (skip : Bool) : Except String (CallState ρ) :=
  match st with
  | .waiting r => .ok (if skip then .standby r else .pending r)
  | .waitingPending r => .ok (.pending r)
  | .standby _ => .error "unexpected state: standby"
  | .pending _ => .error "unexpected state: pending"

/-- `handleFulfill` from `asyncCall.ts`: writes the new result. -/
def handleFulfill (st : CallState ρ) (result : ρ) : Except String (CallState ρ) :=
  match st with
  | .pending _ => .ok (.standby result)
  | .waitingPending _ => .ok (.waiting result)
  | .standby _ => .error "unexpected state: standby"
  | .waiting _ => .error "unexpected state: waiting"

/-- `handleReject` from `asyncCall.ts`: retains the stored result. -/
def handleReject (st : CallState ρ) : Except String (CallState ρ) :=
  match st with
  | .pending r => .ok (.standby r)
  | .waitingPending r => .ok (.waiting r)
  | .standby _ => .error "unexpected state: standby"
  | .waiting _ => .error "unexpected state: waiting"

/-- `handleCancel` from `asyncCall.ts`: total, always returns to standby
with the stored result. -/
def handleCancel : CallState ρ → CallState ρ
  | .standby r => .standby r
  | .waiting r => .standby r
  | .pending r => .standby r
  | .waitingPending r => .standby r

/-- `handleReset` from `asyncCall.ts`: legal only from standby, where it
returns the same state when the result is identical and writes the new
result otherwise. -/
def handleReset [DecidableEq ρ] (st : CallState ρ) (result : ρ) :
    Except String (CallState ρ) :=
  match st with
  | .standby r => .ok (if r = result then .standby r else .standby result)
  | .waiting _ => .error "unexpected state: waiting"
  | .pending _ => .error "unexpected state: pending"
  | .waitingPending _ => .error "unexpected state: waiting-pending"

/-- The `reducer` from the first `asyncCall.ts` snapshot. -/
def reducer [DecidableEq ρ] (st : CallState ρ) (a : CallAction ρ) :
    Except String (CallState ρ) :=
  match a with
  | .start => handleStart st
  | .leadingCall skip => handleLeadingCall st skip
  | .trailingCall skip => handleTrailingCall st skip
  | .fulfill r => handleFulfill st r
  | .reject => handleReject st
  | .cancel => .ok (handleCancel st)
  | .reset r => handleReset st r

/-- Settlement of a promise returned by the user's async function. -/
inductive Outcome (ρ : Type) where
  | fulfilled (r : ρ)
  | rejected
deriving DecidableEq

/-- State of the async call coordinator of `useDebouncedAsyncCall`
(`asyncCall.ts`): in-flight calls are identified by generation ids.
`live` is the id whose cancel capability is held in `cancelAsyncCallRef`;
`cancelled` are the ids whose cancel function was invoked (their
`attachActions` handlers are detached, so their settlement is ignored —
the external-collaborator contract of `@susisu/promise-utils` described in
the spec); `settledIds` are the ids whose handler already ran; `red` is
the reducer state; `logs` counts `console.error` calls; `protoErr` records
a reducer protocol violation (a thrown `unexpected state` error). -/
structure CoordState (ρ : Type) where
  nextId : Nat
  live : Option Nat
  cancelled : List Nat
  settledIds : List Nat
  red : CallState ρ
  logs : Nat
  protoErr : Bool
deriving DecidableEq

/-- Initial coordinator state with the initial result. -/
def coordInit (r : ρ) : CoordState ρ :=
  ⟨0, none, [], [], .standby r, 0, false⟩

/-- `dispatch` into the reducer; a thrown protocol error is recorded. -/
def coordDispatch [DecidableEq ρ] (s : CoordState ρ) (a : CallAction ρ) : CoordState ρ :=
  match reducer s.red a with
  | .ok r' => { s with red := r' }
  | .error _ => { s with protoErr := true }

/-- `call` from the first `asyncCall.ts` snapshot (the in-flight part): if
a cancel capability is held, invoke it (the old call is superseded and its
handlers detached) and then attach actions to a fresh invocation, holding
its cancel capability. -/
def coordCall (s : CoordState ρ) : CoordState ρ :=
  let s1 :=
    match s.live with
    | some id => { s with cancelled := id :: s.cancelled, live := none }
    | none => s
  { s1 with live := some s1.nextId, nextId := s1.nextId + 1 }

/-- Settlement of call `id`: the attached handlers run only if the call was
never cancelled (otherwise `attachActions` has detached them) and has not
already settled.  The fulfillment handler clears `cancelAsyncCallRef` and
dispatches `fulfill`; the rejection handler logs the error to
`console.error`, clears `cancelAsyncCallRef` and dispatches `reject`. -/
def coordSettle [DecidableEq ρ] (id : Nat) (o : Outcome ρ) (s : CoordState ρ) :
    CoordState ρ :=
  if id < s.nextId ∧ id ∉ s.cancelled ∧ id ∉ s.settledIds then
    match o with
    | .fulfilled r =>
        coordDispatch { s with live := none, settledIds := id :: s.settledIds } (.fulfill r)
    | .rejected =>
        coordDispatch
          { s with live := none, settledIds := id :: s.settledIds, logs := s.logs + 1 }
          (.reject)
  else s

/-- `cancelCallback` of `useDebouncedAsyncCall`: cancel the in-flight call
if any, then dispatch `cancel`. -/
def coordEngineCancel [DecidableEq ρ] (s : CoordState ρ) : CoordState ρ :=
  let s1 :=
    match s.live with
    | some id => { s with cancelled := id :: s.cancelled, live := none }
    | none => s
  coordDispatch s1 .cancel

/-- The unmount effect of `useDebouncedAsyncCall`: cancel the in-flight
call without dispatching anything. -/
def coordTeardown (s : CoordState ρ) : CoordState ρ :=
  match s.live with
  | some id => { s with cancelled := id :: s.cancelled, live := none }
  | none => s

/-- `resetRef` of `useDebouncedAsyncCall`: `debounce.cancel()` (whose
cancel callback is always signalled, driving `coordEngineCancel`) followed
by dispatching `reset` — the compound cancel-then-reset operation. -/
def coordReset [DecidableEq ρ] (v : ρ) (s : CoordState ρ) : CoordState ρ :=
  coordDispatch (coordEngineCancel s) (.reset v)

/-- External operations on the coordinator that affect the in-flight call
and reducer state. -/
inductive CoordOp (ρ : Type) where
  | call
  | engineCancel
  | teardown
  | settle (id : Nat) (o : Outcome ρ)
  | reset (v : ρ)
deriving DecidableEq

/-- Apply one coordinator operation. -/
def coordStep [DecidableEq ρ] (s : CoordState ρ) : CoordOp ρ → CoordState ρ
  | .call => coordCall s
  | .engineCancel => coordEngineCancel s
  | .teardown => coordTeardown s
  | .settle id o => coordSettle id o s
  | .reset v => coordReset v s

/-- Run the coordinator from its initial state over a list of operations. -/
def coordRun [DecidableEq ρ] (r0 : ρ) (ops : List (CoordOp ρ)) : CoordState ρ :=
  ops.foldl coordStep (coordInit r0)

/-- A call id is live when it was created but neither cancelled nor
settled: its handlers are still attached and may fire. -/
def isLive (s : CoordState ρ) (id : Nat) : Prop :=
  id < s.nextId ∧ id ∉ s.cancelled ∧ id ∉ s.settledIds

/-- Coordinator invariant: the `cancelAsyncCallRef` capability, when held,
is for a live call; every live call is the one whose capability is held;
and only created ids are ever recorded as cancelled or settled. -/
def coordInv (s : CoordState ρ) : Prop :=
  (∀ id, s.live = some id → isLive s id) ∧
  (∀ id, isLive s id → s.live = some id) ∧
  (∀ id ∈ s.cancelled, id < s.nextId) ∧
  (∀ id ∈ s.settledIds, id < s.nextId)

/-- Leading/trailing configuration of the wrapper hooks. -/
structure EdgeConfig where
  leading : Bool
  trailing : Bool
deriving DecidableEq

/-- Observable state of `useDebouncedState`: the state value and the
`isWaiting` flag. -/
structure DSState (τ : Type) where
  value : τ
  isWaiting : Bool
deriving DecidableEq

/-- The wrapper callbacks of `useDebouncedState` (`state.ts`), applied to
one engine callback invocation: the leading callback sets the state when
`leading` is enabled and raises `isWaiting`; the trailing callback sets the
state unless skipped by `trailing && !(leading && count === 1)` and lowers
`isWaiting`; the cancel callback lowers `isWaiting`.  The returned list
records the user-visible state writes performed by the burst (the same
guard drives the user function invocation in `call.ts` and
`asyncCall.ts`). -/
def dsApply (ec : EdgeConfig) (st : DSState τ) : Out τ → DSState τ × List τ
  | .triggerCb => (st, [])
  | .leadingCb a =>
      if ec.leading then (⟨a, true⟩, [a]) else ({ st with isWaiting := true }, [])
  | .trailingCb a count =>
      if ec.trailing && !(ec.leading && count == 1) then (⟨a, false⟩, [a])
      else ({ st with isWaiting := false }, [])
  | .cancelCb => ({ st with isWaiting := false }, [])

/-- Fold the wrapper over an engine trace, collecting the timestamped
user-visible writes. -/
def dsRun (ec : EdgeConfig) (st0 : DSState τ) (tr : List (Timed τ)) :
    DSState τ × List (Nat × τ) :=
  tr.foldl
    (fun acc x =>
      let r := dsApply ec acc.1 x.out
      (r.1, acc.2 ++ r.2.map (fun a => (x.time, a))))
    (st0, [])

/-- While a burst is waiting, no timer fires strictly before both pending
deadlines. -/
theorem fireTimersA_no_fire {α : Type} (t d : Nat) (mwd : Option Nat) (a : α) (c : Nat)
    (hd : t < d) (hm : ∀ m, mwd = some m → t < m) :
    fireTimersA t (⟨false, .waiting d mwd a c⟩ : PrimState α)
      = (⟨false, .waiting d mwd a c⟩, []) := by
  cases mwd with
  | none =>
      have : ¬ minDl d none ≤ t := by simp [minDl]; omega
      simp [fireTimersA, this]
  | some m =>
      have hm' := hm m rfl
      have : ¬ minDl d (some m) ≤ t := by simp [minDl]; omega
      simp [fireTimersA, this]

/-- Silence after a waiting burst fires the trailing callback once, at the
earliest pending deadline. -/
theorem finishA_fires {α : Type} (d : Nat) (mwd : Option Nat) (a : α) (c : Nat) :
    finishA (⟨false, .waiting d mwd a c⟩ : PrimState α)
      = (⟨false, .standby⟩, [⟨minDl d mwd, .trailingCb a c⟩]) := by
  simp [finishA, fireTimersA, flushA]

/-- Trailing invocations distribute over trace concatenation. -/
theorem trailings_append {α : Type} (xs ys : List (Timed α)) :
    trailings (xs ++ ys) = trailings xs ++ trailings ys := by
  simp [trailings, List.filter_append]

/-- Trigger-callback records contribute no trailing invocation. -/
theorem trailings_trigCbs {α : Type} (l : List (Nat × α)) :
    trailings (l.map (fun p => (⟨p.1, .triggerCb⟩ : Timed α))) = [] := by
  induction l with
  | nil => rfl
  | cons q l ih => simpa [trailings, isTrailing] using ih

/-- Invariant of a burst: while further triggers arrive with gaps smaller
than `wait` and before the maxWait deadline, the engine stays waiting, the
trailing deadline tracks the latest trigger, the maxWait deadline and the
mounted flag are untouched, the args track the latest trigger, the count
increases by one per trigger, and only trigger-callback records are added
to the trace. -/
theorem foldTrigsA {α : Type} (cfg : Config) (l : List (Nat × α)) :
    ∀ (tp : Nat) (b : α) (c : Nat) (mwd : Option Nat) (tr : List (Timed α)),
    gapsOk cfg tp l = true →
    allBelow mwd l = true →
    (trigEvents l).foldl (stepA cfg) (⟨false, .waiting (tp + cfg.wait) mwd b c⟩, tr)
      = (⟨false, .waiting (lastTimeOf tp l + cfg.wait) mwd (lastArgOf b l) (c + l.length)⟩,
         tr ++ l.map (fun p => ⟨p.1, .triggerCb⟩)) := by
  induction l with
  | nil => intro tp b c mwd tr _ _; simp [trigEvents, lastTimeOf, lastArgOf]
  | cons q l ih =>
      intro tp b c mwd tr hg hb
      obtain ⟨t1, a1⟩ := q
      simp only [gapsOk, Bool.and_eq_true, decide_eq_true_eq] at hg
      obtain ⟨⟨hgt, hlt⟩, hg'⟩ := hg
      simp only [allBelow, List.all_cons, Bool.and_eq_true] at hb
      obtain ⟨hb1, hb'⟩ := hb
      have hnf : fireTimersA t1 (⟨false, .waiting (tp + cfg.wait) mwd b c⟩ : PrimState α)
          = (⟨false, .waiting (tp + cfg.wait) mwd b c⟩, []) := by
        refine fireTimersA_no_fire t1 (tp + cfg.wait) mwd b c hlt ?_
        intro m hm
        subst hm
        simpa [belowOpt] using hb1
      have hstep :
          stepA cfg ((⟨false, .waiting (tp + cfg.wait) mwd b c⟩ : PrimState α), tr)
              (⟨t1, .trig a1⟩ : Ev α)
            = (⟨false, .waiting (t1 + cfg.wait) mwd a1 (c + 1)⟩,
               tr ++ [⟨t1, .triggerCb⟩]) := by
        simp [stepA, hnf, triggerA]
      have hunfold : trigEvents ((t1, a1) :: l) = (⟨t1, .trig a1⟩ : Ev α) :: trigEvents l := rfl
      rw [hunfold, List.foldl_cons, hstep,
        ih t1 a1 (c + 1) mwd (tr ++ [(⟨t1, .triggerCb⟩ : Timed α)]) hg'
          (by simpa [allBelow] using hb')]
      have hc : c + 1 + l.length = c + (l.length + 1) := by omega
      simp [lastTimeOf, lastArgOf, hc, List.append_assoc]

/-- Claim C1: for every trigger sequence in which no gap between
consecutive triggers reaches `wait` and every trigger arrives before the
maxWait ceiling of the burst, the trailing callback is invoked exactly
once, with the arguments of the last trigger, at the earlier of `wait`
after the final trigger and `maxWait` after the first; it is never invoked
a second time for the burst. -/
theorem trailing_fires_exactly_once_per_burst {α : Type} (cfg : Config) (t0 : Nat) (a0 : α)
    (rest : List (Nat × α))
    (hg : gapsOk cfg t0 rest = true)
    (hb : allBelow (cfg.maxWait.map (t0 + ·)) rest = true) :
    trailings (runA cfg (trigEvents ((t0, a0) :: rest))).2
      = [⟨minDl (lastTimeOf t0 rest + cfg.wait) (cfg.maxWait.map (t0 + ·)),
          .trailingCb (lastArgOf a0 rest) (rest.length + 1)⟩] := by
  have h0 : stepA cfg ((⟨false, .standby⟩ : PrimState α), ([] : List (Timed α)))
      (⟨t0, .trig a0⟩ : Ev α)
      = (⟨false, .waiting (t0 + cfg.wait) (cfg.maxWait.map (t0 + ·)) a0 1⟩,
         [⟨t0, .triggerCb⟩, ⟨t0, .leadingCb a0⟩]) := by
    simp [stepA, fireTimersA, triggerA]
  have hunfold : trigEvents ((t0, a0) :: rest) = (⟨t0, .trig a0⟩ : Ev α) :: trigEvents rest := rfl
  rw [runA, hunfold, List.foldl_cons, h0,
    foldTrigsA cfg rest t0 a0 1 (cfg.maxWait.map (t0 + ·))
      [(⟨t0, .triggerCb⟩ : Timed α), (⟨t0, .leadingCb a0⟩ : Timed α)] hg hb]
  rw [finishA_fires]
  rw [trailings_append]
  have h1 : trailings ([(⟨t0, .triggerCb⟩ : Timed α), (⟨t0, .leadingCb a0⟩ : Timed α)]
      ++ rest.map (fun p => ⟨p.1, .triggerCb⟩)) = [] := by
    rw [trailings_append, trailings_trigCbs]
    rfl
  rw [h1]
  simp [trailings, isTrailing, Nat.add_comm]

/-- Witness for claim C1: `wait = 1000`, `maxWait = 1500`, triggers at 0,
500 and 1000; the trailing callback fires once, at 1500 (the maxWait
ceiling), with the last args. -/
theorem trailing_fires_exactly_once_per_burst_inst :
    (gapsOk (⟨1000, some 1500⟩ : Config) 0 [(500, "bar"), (1000, "baz")] = true) ∧
    (allBelow (((⟨1000, some 1500⟩ : Config)).maxWait.map (0 + ·))
      [(500, "bar"), (1000, "baz")] = true) ∧
    trailings (runA (⟨1000, some 1500⟩ : Config)
        (trigEvents [(0, "foo"), (500, "bar"), (1000, "baz")])).2
      = [⟨1500, .trailingCb "baz" 3⟩] :=
  ⟨by decide, by decide,
   (trailing_fires_exactly_once_per_burst (⟨1000, some 1500⟩ : Config) 0 "foo"
      [(500, "bar"), (1000, "baz")] (by decide) (by decide)).trans (by decide)⟩

/-- Counterexample for claim C2: in the `prim.ts` snapshot whose `cancelRef`
handles the standby case with a bare `break`, cancelling an idle engine
invokes no callback at all — in particular it does not invoke the cancel
callback hook. -/
theorem idle_cancel_signals_no_callback_in_prim_snapshot :
    cancelA (α := String) ⟨false, .standby⟩ = (⟨false, .standby⟩, []) ∧
    Out.cancelCb ∉ (cancelA (α := String) ⟨false, .standby⟩).2 := by
  decide

/-- Claim C2 (amended): on an idle mounted engine, flush invokes nothing
and changes no state in either `prim.ts` snapshot; cancel changes no state,
and whether the cancel callback hook is signalled depends on the snapshot —
the `prim.ts` `cancelRef` invokes nothing from standby, while the later
object-returning snapshot still signals the cancel callback (the idempotent
signal). -/
theorem idle_cancel_flush_semantics (α : Type) :
    flushA (⟨false, .standby⟩ : PrimState α) = (⟨false, .standby⟩, []) ∧
    flushB (⟨false, .standby⟩ : PrimState α) = (⟨false, .standby⟩, []) ∧
    cancelA (⟨false, .standby⟩ : PrimState α) = (⟨false, .standby⟩, []) ∧
    cancelB (⟨false, .standby⟩ : PrimState α) = (⟨false, .standby⟩, []) ∧
    cancelC (⟨false, .standby⟩ : PrimState α) = (⟨false, .standby⟩, [.cancelCb]) := by
  refine ⟨?_, ?_, ?_, ?_, ?_⟩ <;> simp [flushA, flushB, cancelA, cancelB, cancelC]

/-- Claim C3: a trigger arriving while a burst is active overwrites the
stored args, increments the count by one, replaces the trailing deadline by
`wait` from now (the old timer is cancelled and a new one scheduled),
leaves the maxWait deadline untouched, and invokes only the trigger
callback — not the leading callback. -/
theorem trigger_while_active_updates_burst (cfg : Config) (now d : Nat)
    (mwd : Option Nat) (a b : α) (c : Nat) :
    triggerA cfg now b ⟨false, .waiting d mwd a c⟩
      = (⟨false, .waiting (now + cfg.wait) mwd b (c + 1)⟩, [.triggerCb]) := by
  simp [triggerA]

/-- Claim C4: with `wait = 1000` and triggers at 0 with "foo", 500 with
"bar" and 1000 with "baz" followed by silence, the trailing callback is
invoked exactly once, at 2000, with "baz"; the count is 3 in the snapshot
that opens a burst with count 1 (two non-opening triggers plus the opening
one) and 2 in the snapshot that opens with count 0 (exactly the two
non-opening triggers). -/
theorem burst_scenario_foo_bar_baz :
    (runA (⟨1000, none⟩ : Config) (trigEvents [(0, "foo"), (500, "bar"), (1000, "baz")])).2
      = [⟨0, .triggerCb⟩, ⟨0, .leadingCb "foo"⟩, ⟨500, .triggerCb⟩, ⟨1000, .triggerCb⟩,
         ⟨2000, .trailingCb "baz" 3⟩] ∧
    (runB (⟨1000, none⟩ : Config) (trigEvents [(0, "foo"), (500, "bar"), (1000, "baz")])).2
      = [⟨0, .leadingCb "foo"⟩, ⟨2000, .trailingCb "baz" 2⟩] := by
  decide

/-- Counterexample for claim C5: in the `prim.ts` snapshot without a
pre-scheduling unmounted guard (`debouncedFunc`), a trigger after unmount
is not a no-op — it schedules a trailing timer and moves the engine back
into the waiting state (only the callbacks are suppressed). -/
theorem trigger_after_unmount_schedules_in_unguarded_snapshot :
    triggerB (⟨1000, none⟩ : Config) 0 "foo" ⟨true, .standby⟩
      = (⟨true, .waiting 1000 none "foo" 0⟩, []) ∧
    (⟨true, RunState.waiting 1000 none "foo" 0⟩ : PrimState String) ≠ ⟨true, .standby⟩ := by
  decide

/-- Claim C5 (amended): after teardown, in the guarded `prim.ts` snapshot
every trigger/cancel/flush call is a complete no-op (no state change, no
timer scheduled, no callback invoked) and the engine never re-enters
waiting; in the unguarded snapshot no callback is ever invoked after
teardown, but trigger may still schedule timers and change state; the async
coordinator's teardown cancels any in-flight call. -/
theorem teardown_semantics {ρ : Type} [DecidableEq ρ] (cfg : Config) (t : Nat) (a : α)
    (s : PrimState α) (h : s.unmounted = true) (cs : CoordState ρ) (id : Nat) :
    triggerA cfg t a s = (s, []) ∧ cancelA s = (s, []) ∧ flushA s = (s, []) ∧
    cancelC s = (s, []) ∧
    (triggerB cfg t a s).2 = [] ∧ (flushB s).2 = [] ∧ (cancelB s).2 = [] ∧
    (coordTeardown cs).live = none ∧
    (cs.live = some id → id ∈ (coordTeardown cs).cancelled) := by
  obtain ⟨u, run⟩ := s
  simp only at h
  subst h
  refine ⟨by simp [triggerA], by simp [cancelA], by simp [flushA], by simp [cancelC],
    ?_, ?_, ?_, ?_, ?_⟩
  · cases run <;> simp [triggerB]
  · cases run <;> simp [flushB]
  · cases run <;> simp [cancelB]
  · cases hcl : cs.live <;> simp [coordTeardown, hcl]
  · intro hl
    simp [coordTeardown, hl]

/-- Witness for claim C5 (amended): an unmounted idle engine ignores
cancel, and tearing down a coordinator holding in-flight call 0 cancels
it. -/
theorem teardown_semantics_inst :
    (cancelA (⟨true, .standby⟩ : PrimState String) = (⟨true, .standby⟩, [])) ∧
    ((coordTeardown (⟨1, some 0, [], [], .standby 0, 0, false⟩ : CoordState Nat)).live
        = none) ∧
    (0 ∈ (coordTeardown (⟨1, some 0, [], [], .standby 0, 0, false⟩ :
        CoordState Nat)).cancelled) := by
  have h := teardown_semantics (ρ := Nat) (⟨1000, none⟩ : Config) 0 "x"
    (⟨true, .standby⟩ : PrimState String) rfl
    (⟨1, some 0, [], [], .standby 0, 0, false⟩ : CoordState Nat) 0
  exact ⟨h.2.1, h.2.2.2.2.2.2.2.1, h.2.2.2.2.2.2.2.2 rfl⟩

/-- Dispatching into the reducer touches only the reducer state and the
protocol-error flag. -/
theorem coordDispatch_projections {ρ : Type} [DecidableEq ρ] (s : CoordState ρ)
    (a : CallAction ρ) :
    (coordDispatch s a).live = s.live ∧ (coordDispatch s a).nextId = s.nextId ∧
    (coordDispatch s a).cancelled = s.cancelled ∧
    (coordDispatch s a).settledIds = s.settledIds := by
  unfold coordDispatch
  cases reducer s.red a <;> simp

/-- Dispatching preserves the coordinator invariant. -/
theorem coordInv_dispatch {ρ : Type} [DecidableEq ρ] (s : CoordState ρ) (a : CallAction ρ)
    (h : coordInv s) : coordInv (coordDispatch s a) := by
  obtain ⟨hp1, hp2, hp3, hp4⟩ := coordDispatch_projections s a
  obtain ⟨h1, h2, h3, h4⟩ := h
  refine ⟨?_, ?_, ?_, ?_⟩ <;> simp only [isLive, hp1, hp2, hp3, hp4]
  · exact fun id hid => h1 id hid
  · exact fun id hid => h2 id hid
  · exact h3
  · exact h4

/-- Cancelling the in-flight call preserves the coordinator invariant. -/
theorem coordInv_teardown {ρ : Type} (s : CoordState ρ) (h : coordInv s) :
    coordInv (coordTeardown s) := by
  obtain ⟨h1, h2, h3, h4⟩ := h
  cases hl : s.live with
  | none =>
      have he : coordTeardown s = s := by simp [coordTeardown, hl]
      rw [he]
      exact ⟨h1, h2, h3, h4⟩
  | some k =>
      have hk : isLive s k := h1 k hl
      have hts : coordTeardown s = { s with cancelled := k :: s.cancelled, live := none } := by
        simp [coordTeardown, hl]
      rw [hts]
      refine ⟨?_, ?_, ?_, ?_⟩
      · intro id hid
        simp at hid
      · intro id hid
        obtain ⟨ha, hb, hc⟩ := hid
        simp only [List.mem_cons, not_or] at hb
        obtain ⟨hne, hb⟩ := hb
        exfalso
        have hsome := h2 id ⟨ha, hb, hc⟩
        rw [hl] at hsome
        exact hne (Option.some.inj hsome).symm
      · intro id hmem
        simp only [List.mem_cons] at hmem
        rcases hmem with rfl | hmem
        · exact hk.1
        · exact h3 id hmem
      · intro id hmem
        exact h4 id hmem

/-- After cancelling the in-flight call no capability is held. -/
theorem coordTeardown_live {ρ : Type} (s : CoordState ρ) : (coordTeardown s).live = none := by
  cases hl : s.live <;> simp [coordTeardown, hl]

/-- Cancelling the in-flight call creates no id. -/
theorem coordTeardown_nextId {ρ : Type} (s : CoordState ρ) :
    (coordTeardown s).nextId = s.nextId := by
  cases hl : s.live <;> simp [coordTeardown, hl]

/-- A new call is the cancel-in-flight step followed by attaching a fresh
invocation. -/
theorem coordCall_eq {ρ : Type} (s : CoordState ρ) :
    coordCall s = { coordTeardown s with live := some s.nextId, nextId := s.nextId + 1 } := by
  cases hl : s.live <;> simp [coordCall, coordTeardown, hl]

/-- Starting a new call preserves the coordinator invariant. -/
theorem coordInv_call {ρ : Type} (s : CoordState ρ) (h : coordInv s) :
    coordInv (coordCall s) := by
  rw [coordCall_eq]
  obtain ⟨t1, t2, t3, t4⟩ := coordInv_teardown s h
  have hnid := coordTeardown_nextId s
  have hlv := coordTeardown_live s
  refine ⟨?_, ?_, ?_, ?_⟩
  · intro id hid
    have hid' : s.nextId = id := by simpa using hid
    subst hid'
    refine ⟨by simp, ?_, ?_⟩
    · intro hmem
      have hlt := t3 _ hmem
      rw [hnid] at hlt
      exact absurd hlt (lt_irrefl _)
    · intro hmem
      have hlt := t4 _ hmem
      rw [hnid] at hlt
      exact absurd hlt (lt_irrefl _)
  · intro id hid
    obtain ⟨ha, hb, hc⟩ := hid
    have ha' : id < s.nextId + 1 := ha
    by_cases hcase : id = s.nextId
    · subst hcase
      rfl
    · have hlt : id < (coordTeardown s).nextId := by
        rw [hnid]
        omega
      have hcontra := t2 id ⟨hlt, hb, hc⟩
      rw [hlv] at hcontra
      exact absurd hcontra (by simp)
  · intro id hmem
    have hlt := t3 id hmem
    rw [hnid] at hlt
    exact Nat.lt_succ_of_lt hlt
  · intro id hmem
    have hlt := t4 id hmem
    rw [hnid] at hlt
    exact Nat.lt_succ_of_lt hlt

/-- The engine-driven cancel is cancel-in-flight followed by dispatching
the cancel event. -/
theorem coordEngineCancel_eq {ρ : Type} [DecidableEq ρ] (s : CoordState ρ) :
    coordEngineCancel s = coordDispatch (coordTeardown s) .cancel := by
  cases hl : s.live <;> simp [coordEngineCancel, coordTeardown, hl]

/-- The engine-driven cancel preserves the coordinator invariant. -/
theorem coordInv_engineCancel {ρ : Type} [DecidableEq ρ] (s : CoordState ρ) (h : coordInv s) :
    coordInv (coordEngineCancel s) := by
  rw [coordEngineCancel_eq]
  exact coordInv_dispatch _ _ (coordInv_teardown s h)

/-- Settlement of a call preserves the coordinator invariant. -/
theorem coordInv_settle {ρ : Type} [DecidableEq ρ] (s : CoordState ρ) (id : Nat)
    (o : Outcome ρ) (h : coordInv s) : coordInv (coordSettle id o s) := by
  obtain ⟨h1, h2, h3, h4⟩ := h
  unfold coordSettle
  split
  · rename_i hcond
    obtain ⟨hc1, hc2, hc3⟩ := hcond
    have mk : ∀ (lg : Nat),
        coordInv (⟨s.nextId, none, s.cancelled, id :: s.settledIds, s.red, lg, s.protoErr⟩ :
          CoordState ρ) := by
      intro lg
      refine ⟨?_, ?_, ?_, ?_⟩
      · intro j hj
        simp at hj
      · intro j hj
        obtain ⟨ha, hb, hc⟩ := hj
        simp only [List.mem_cons, not_or] at hc
        obtain ⟨hne, hc⟩ := hc
        exfalso
        have hj' := h2 j ⟨ha, hb, hc⟩
        have hi' := h2 id ⟨hc1, hc2, hc3⟩
        rw [hj'] at hi'
        exact hne (Option.some.inj hi')
      · intro j hmem
        exact h3 j hmem
      · intro j hmem
        simp only [List.mem_cons] at hmem
        rcases hmem with rfl | hmem
        · exact hc1
        · exact h4 j hmem
    cases o with
    | fulfilled r => exact coordInv_dispatch _ _ (mk s.logs)
    | rejected => exact coordInv_dispatch _ _ (mk (s.logs + 1))
  · exact ⟨h1, h2, h3, h4⟩

/-- Every coordinator operation preserves the invariant. -/
theorem coordInv_step {ρ : Type} [DecidableEq ρ] (s : CoordState ρ) (op : CoordOp ρ)
    (h : coordInv s) : coordInv (coordStep s op) := by
  cases op with
  | call => exact coordInv_call s h
  | engineCancel => exact coordInv_engineCancel s h
  | teardown => exact coordInv_teardown s h
  | settle id o => exact coordInv_settle s id o h
  | reset v => exact coordInv_dispatch _ _ (coordInv_engineCancel s h)

/-- The initial coordinator state satisfies the invariant. -/
theorem coordInv_init {ρ : Type} (r : ρ) : coordInv (coordInit r) := by
  refine ⟨?_, ?_, ?_, ?_⟩
  · intro id hid
    simp [coordInit] at hid
  · intro id hid
    obtain ⟨ha, _, _⟩ := hid
    simp [coordInit] at ha
  · intro id hmem
    simp [coordInit] at hmem
  · intro id hmem
    simp [coordInit] at hmem

/-- Every reachable coordinator state satisfies the invariant. -/
theorem coordInv_run {ρ : Type} [DecidableEq ρ] (r0 : ρ) (ops : List (CoordOp ρ)) :
    coordInv (coordRun r0 ops) := by
  have key : ∀ (s : CoordState ρ), coordInv s → coordInv (ops.foldl coordStep s) := by
    induction ops with
    | nil => exact fun s h => h
    | cons op ops ih => exact fun s h => ih _ (coordInv_step s op h)
  exact key _ (coordInv_init r0)

/-- The engine-driven cancel always leaves the reducer in standby with the
retained result and never raises a protocol error. -/
theorem coordEngineCancel_red {ρ : Type} [DecidableEq ρ] (s : CoordState ρ) :
    (coordEngineCancel s).red = .standby s.red.result ∧
    (coordEngineCancel s).protoErr = s.protoErr := by
  rw [coordEngineCancel_eq]
  unfold coordDispatch
  cases hr : (coordTeardown s).red <;>
    cases hl : s.live <;>
      simp_all [reducer, handleCancel, CallState.result, coordTeardown]

/-- Claim C6: in every reachable coordinator state at most one invocation
is live (unsettled and uncancelled); the settlement of a call that was
cancelled on supersession changes nothing — neither the stored result, the
reducer state, nor the logs; and starting a new call while one is live
cancels the in-flight one first. -/
theorem superseded_call_never_applies {ρ : Type} [DecidableEq ρ] (r0 : ρ)
    (ops : List (CoordOp ρ)) :
    (∀ i j, isLive (coordRun r0 ops) i → isLive (coordRun r0 ops) j → i = j) ∧
    (∀ id ∈ (coordRun r0 ops).cancelled, ∀ o,
      coordSettle id o (coordRun r0 ops) = coordRun r0 ops) ∧
    (∀ id, (coordRun r0 ops).live = some id →
      (coordCall (coordRun r0 ops)).cancelled = id :: (coordRun r0 ops).cancelled) := by
  obtain ⟨h1, h2, h3, h4⟩ := coordInv_run r0 ops
  refine ⟨?_, ?_, ?_⟩
  · intro i j hi hj
    have hi' := h2 i hi
    have hj' := h2 j hj
    rw [hi'] at hj'
    exact Option.some.inj hj'
  · intro id hmem o
    have : ¬ (id < (coordRun r0 ops).nextId ∧ id ∉ (coordRun r0 ops).cancelled ∧
        id ∉ (coordRun r0 ops).settledIds) := by
      intro hcontra
      exact hcontra.2.1 hmem
    simp [coordSettle, this]
  · intro id hl
    simp [coordCall, hl]

/-- Witness for claim C6: after two calls, the first call is superseded and
its fulfillment is silently discarded. -/
theorem superseded_call_never_applies_inst :
    coordSettle 0 (Outcome.fulfilled 7) (coordRun (0 : Nat) [CoordOp.call, CoordOp.call])
      = coordRun (0 : Nat) [CoordOp.call, CoordOp.call] :=
  (superseded_call_never_applies 0 [CoordOp.call, CoordOp.call]).2.1 0 (by decide)
    (Outcome.fulfilled 7)

/-- Claim C7: when the live call rejects, the reducer transitions from
pending to standby or from waiting-pending to waiting with the stored
result retained, the error is logged (the log count grows by one), the
capability is released, and no exception escapes — `handleReject` succeeds
on both legal states and the protocol-error flag is untouched. -/
theorem rejection_logged_and_recovered {ρ : Type} [DecidableEq ρ] (s : CoordState ρ)
    (id : Nat) (r : ρ)
    (h1 : id < s.nextId) (h2 : id ∉ s.cancelled) (h3 : id ∉ s.settledIds) :
    handleReject (CallState.pending r) = .ok (.standby r) ∧
    handleReject (CallState.waitingPending r) = .ok (.waiting r) ∧
    (s.red = .pending r →
      coordSettle id .rejected s
        = { s with live := none, settledIds := id :: s.settledIds,
                   logs := s.logs + 1, red := .standby r }) ∧
    (s.red = .waitingPending r →
      coordSettle id .rejected s
        = { s with live := none, settledIds := id :: s.settledIds,
                   logs := s.logs + 1, red := .waiting r }) := by
  refine ⟨rfl, rfl, ?_, ?_⟩ <;> intro hred <;>
    simp [coordSettle, h1, h2, h3, coordDispatch, reducer, hred, handleReject]

/-- Witness for claim C7: rejection of the sole live call from pending
returns to standby with the previous result 5 retained and one log
entry. -/
theorem rejection_logged_and_recovered_inst :
    coordSettle 0 (Outcome.rejected)
        (⟨1, some 0, [], [], .pending 5, 0, false⟩ : CoordState Nat)
      = (⟨1, none, [], [0], .standby 5, 1, false⟩ : CoordState Nat) := by
  have h := rejection_logged_and_recovered
    (⟨1, some 0, [], [], .pending 5, 0, false⟩ : CoordState Nat) 0 5
    (by decide) (by decide) (by decide)
  exact (h.2.2.1 rfl).trans (by decide)

/-- Claim C8: the reset event is legal only from standby — where it writes
the new result, or leaves the state unchanged when identical — and throws
from waiting, pending and waiting-pending; the public reset performs cancel
before dispatching reset as one compound sequence, so it always ends in
standby with the new result and never raises a protocol error. -/
theorem reset_only_from_standby_compound {ρ : Type} [DecidableEq ρ] (r v : ρ)
    (s : CoordState ρ) :
    handleReset (CallState.standby r) v = .ok (.standby v) ∧
    handleReset (CallState.waiting r) v = .error "unexpected state: waiting" ∧
    handleReset (CallState.pending r) v = .error "unexpected state: pending" ∧
    handleReset (CallState.waitingPending r) v = .error "unexpected state: waiting-pending" ∧
    (coordReset v s).red = .standby v ∧
    (coordReset v s).protoErr = s.protoErr := by
  have hok : ∀ (w : ρ), handleReset (CallState.standby w) v = .ok (.standby v) := by
    intro w
    by_cases hw : w = v <;> simp [handleReset, hw]
  obtain ⟨hred, herr⟩ := coordEngineCancel_red s
  have hcompound : (coordReset v s).red = .standby v ∧
      (coordReset v s).protoErr = s.protoErr := by
    unfold coordReset coordDispatch
    rw [show reducer (coordEngineCancel s).red (CallAction.reset v)
        = handleReset (coordEngineCancel s).red v from rfl, hred, hok]
    simp [herr]
  exact ⟨hok r, rfl, rfl, rfl, hcompound.1, hcompound.2⟩

/-- Claim C9: with leading and trailing enabled, a burst consisting of
exactly one trigger invokes the user function only at the leading edge: the
trailing edge fires at `wait` after the trigger with count 1, is skipped by
the `leading && count === 1` guard without a second invocation, and the
waiting indicator ends cleared. -/
theorem leading_single_trigger_skips_trailing (τ : Type) (w t0 : Nat) (a init : τ) :
    (runA (⟨w, none⟩ : Config) [⟨t0, .trig a⟩]).2
      = [⟨t0, .triggerCb⟩, ⟨t0, .leadingCb a⟩, ⟨t0 + w, .trailingCb a 1⟩] ∧
    dsRun ⟨true, true⟩ ⟨init, false⟩ (runA (⟨w, none⟩ : Config) [⟨t0, .trig a⟩]).2
      = (⟨a, false⟩, [(t0, a)]) := by
  have h : (runA (⟨w, none⟩ : Config) [⟨t0, .trig a⟩]).2
      = [⟨t0, .triggerCb⟩, ⟨t0, .leadingCb a⟩, ⟨t0 + w, .trailingCb a 1⟩] := by
    simp [runA, stepA, fireTimersA, triggerA, finishA, flushA, minDl]
  refine ⟨h, ?_⟩
  rw [h]
  simp [dsRun, dsApply]

/-- Claim C10 (implicit): the engine commits its state before invoking the
user-facing callback — opening a burst records the waiting state (count 1,
both deadlines) before the leading callback record, so a re-entrant trigger
issued from inside the leading callback joins the active burst (count 2,
same maxWait deadline, no duplicate leading callback); and flush commits
standby before the trailing callback record, so a re-entrant trigger from
inside the trailing callback opens a fresh burst. -/
theorem state_committed_before_callbacks (cfg : Config) (t d : Nat)
    (mwd : Option Nat) (a b x : α) (c : Nat) :
    triggerA cfg t a (⟨false, .standby⟩ : PrimState α)
        = (⟨false, .waiting (t + cfg.wait) (cfg.maxWait.map (t + ·)) a 1⟩,
           [.triggerCb, .leadingCb a]) ∧
    triggerA cfg t b (triggerA cfg t a (⟨false, .standby⟩ : PrimState α)).1
        = (⟨false, .waiting (t + cfg.wait) (cfg.maxWait.map (t + ·)) b 2⟩, [.triggerCb]) ∧
    flushA (⟨false, .waiting d mwd x c⟩ : PrimState α)
        = (⟨false, .standby⟩, [.trailingCb x c]) ∧
    triggerA cfg t b (flushA (⟨false, .waiting d mwd x c⟩ : PrimState α)).1
        = (⟨false, .waiting (t + cfg.wait) (cfg.maxWait.map (t + ·)) b 1⟩,
           [.triggerCb, .leadingCb b]) := by
  refine ⟨by simp [triggerA], ?_, by simp [flushA], ?_⟩ <;> simp [triggerA, flushA]

end UseDebounced
